import Mathlib

/-!
Shallow embedding of the flow composition library: the five composition
primitives `pipe`, `parallel`, `branch`, `race`, `cycle` (src/index.ts) and the
validation wrapper `withSchema` (src/validation.ts).

Modelling conventions:
* JavaScript's dynamic values flow through a type parameter; a step is a
  function `α → Except (JSError γ) α` (a promise either fulfils with a value or
  rejects with an error).
* `parallel` and `race` steps additionally report a settle time (a `Nat`),
  since their semantics depend on settlement order; `promiseAll` and
  `promiseRace` embed the ECMAScript `Promise.all` / `Promise.race` contracts
  over such timed outcomes (earliest settlement = smallest time, ties resolved
  by index order, which is the order callbacks are attached on one thread).
* Arguments that JavaScript only duck-types are embedded as `JSArg` (a function
  or a non-function, remembering its `typeof` string) and `ArrArg` (an array of
  such values, or a non-array).
* A construction-time `throw` is an `Except.error` of the constructor; a
  rejected promise is an `Except.error` of the returned composed function.
-/

deriving instance DecidableEq for Except

namespace Flow

variable {α β γ τ : Type}

/-- A structured validation issue as produced by the schema library's safe
parse: one `{path, message}` entry of `result.error.issues`. -/
structure Issue where
  path : List String
  message : String
deriving DecidableEq

/-- A JavaScript error as observed by the composition layer: either a
`ValidationError` (src/validation.ts, class ValidationError) with its
structured fields `errors`, `received`, `nodeContext`, `flowContext`, or any
other `Error`, of which the layer only ever uses the message. -/
inductive JSError (γ : Type) where
  | validation (message : String) (errors : List Issue) (received : Option γ)
      (nodeContext : Option String) (flowContext : Option (List String))
  | generic (message : String)
deriving DecidableEq

/-- An argument that is expected to be a function: either an actual function,
or a non-function value remembering its `typeof` string. -/
inductive JSArg (τ : Type) where
  | fn (f : τ)
  | notFn (kind : String)

/-- An argument that is expected to be an array of functions. -/
inductive ArrArg (τ : Type) where
  | arr (items : List (JSArg τ))
  | notArr

/-- Models `error.flowContext = error.flowContext || []; error.flowContext.unshift(entry)`
as performed by `pipe`, `parallel` and `branch` on `ValidationError`s only; any
other error is left untouched. -/
def addFlowContext (entry : String) : JSError γ → JSError γ
  | .validation m errs r nc fc => .validation m errs r nc (some (entry :: fc.getD []))
  | .generic m => .generic m

/-- Embeds a total synchronous step (one that always returns normally) as a
step function. -/
def liftFn (f : α → β) : α → Except (JSError γ) β := fun a => Except.ok (f a)

/-- The schema capability: a safe parse returning either a (possibly coerced)
value or a list of structured issues. -/
def Schema (γ : Type) : Type := γ → Except (List Issue) γ

/-- JavaScript's `||` on strings: the empty string is falsy. -/
def jsOr (a b : String) : String := if a = "" then b else a

/-- Embedding of `withSchema(fn, {input?, output?}, label?)` from src/validation.ts:
computes `functionLabel = label || fn.name || 'anonymous'`; parses the input
when an input schema is given (failing with a `ValidationError` carrying the
issues, the raw data and `nodeContext = functionLabel`, without calling `fn`);
calls `fn` on the validated input, filling `nodeContext` of a `ValidationError`
only when absent and wrapping any other error in a new generic error; parses
the output when an output schema is given. `fnName` is JavaScript's `fn.name`
(the empty string for an anonymous function). -/
def withSchema (fn : γ → Except (JSError γ) γ) (inputS outputS : Option (Schema γ))
    (labelOpt : Option String) (fnName : String) : γ → Except (JSError γ) γ :=
  fun data =>
    let functionLabel := jsOr (labelOpt.getD "") (jsOr fnName "anonymous")
    let parsedInput : Except (JSError γ) γ :=
      match inputS with
      | none => Except.ok data
      | some s =>
        match s data with
        | .ok v => Except.ok v
        | .error issues =>
          Except.error (.validation
            ("Input validation failed for function '" ++ functionLabel ++ "'")
            issues (some data) (some functionLabel) none)
    match parsedInput with
    | .error e => Except.error e
    | .ok validatedInput =>
      match fn validatedInput with
      | .error (.validation m errs r nc fc) =>
        Except.error (.validation m errs r (some (jsOr (nc.getD "") functionLabel)) fc)
      | .error (.generic m) =>
        Except.error (.generic
          ("Function '" ++ functionLabel ++ "' execution failed: " ++ m))
      | .ok result =>
        match outputS with
        | none => Except.ok result
        | some s =>
          match s result with
          | .ok out => Except.ok out
          | .error issues =>
            Except.error (.validation
              ("Output validation failed for function '" ++ functionLabel ++ "'")
              issues (some result) (some functionLabel) none)

/-- One pass of `corePipe`'s reduce callback (src/index.ts): a non-function
item throws with its index; otherwise the callback awaits the accumulated
payload and applies the step inside `try`, so a failure arriving from an
earlier step, as well as a failure of this step, is annotated with
`label[index]` (for `ValidationError`s) before being rethrown. -/
def pipeStep (label : String) (index : Nat) (step : JSArg (α → Except (JSError α) α))
    (payload : Except (JSError α) α) : Except (JSError α) α :=
  match step with
  | .notFn kind =>
    Except.error (.generic
      ("All items in pipe array must be functions (item " ++ toString index ++ " is " ++ kind ++ ")"))
  | .fn f =>
    match payload with
    | .error e => Except.error (addFlowContext (label ++ "[" ++ toString index ++ "]") e)
    | .ok v =>
      match f v with
      | .ok w => Except.ok w
      | .error e => Except.error (addFlowContext (label ++ "[" ++ toString index ++ "]") e)

/-- The indexed left fold performed by `fns.reduce(...)` in `corePipe`. -/
def pipeFold (label : String) :
    Nat → List (JSArg (α → Except (JSError α) α)) → Except (JSError α) α → Except (JSError α) α
  | _, [], payload => payload
  | i, step :: rest, payload => pipeFold label (i + 1) rest (pipeStep label i step payload)

/-- Embedding of `corePipe` from src/index.ts: reduce the steps over the initial payload
`Promise.resolve(param)`. -/
def corePipe (label : String) (fns : List (JSArg (α → Except (JSError α) α))) (param : α) :
    Except (JSError α) α :=
  pipeFold label 0 fns (Except.ok param)

/-- Embedding of `pipe(fns, validation = {})` from src/index.ts: throws synchronously on a
non-array or empty argument; resolves the label (default `"pipe"`); wraps
`corePipe` in `withSchema` exactly when an input or output schema is given
(the arrow function assigned to `const corePipe` has `fn.name = "corePipe"`). -/
def pipe (fnsArg : ArrArg (α → Except (JSError α) α)) (inputS outputS : Option (Schema α))
    (labelOpt : Option String) : Except String (α → Except (JSError α) α) :=
  match fnsArg with
  | .notArr => Except.error "pipe() requires an array of functions"
  | .arr fns =>
    if fns.length = 0 then Except.error "pipe() requires at least one function"
    else
      let label := labelOpt.getD "pipe"
      if inputS.isSome || outputS.isSome then
        Except.ok (withSchema (corePipe label fns) inputS outputS (some label) "corePipe")
      else
        Except.ok (corePipe label fns)

theorem pipeFold_lift (label : String) (fns : List (α → α)) :
    ∀ (i : Nat) (x : α),
      pipeFold label i (fns.map (fun f => JSArg.fn (liftFn f))) (Except.ok x)
        = Except.ok (fns.foldl (fun a f => f a) x) := by
  induction fns with
  | nil => intro i x; rfl
  | cons f rest ih =>
    intro i x
    simpa [pipeFold, pipeStep, liftFn] using ih (i + 1) (f x)

/-- C1: for every non-empty list of step functions `[f1..fn]` and every input
`x`, the composed function returned by `pipe` applies the steps left to right,
each receiving the previous step's result, and fulfils with
`fn(...f1(x))` — here stated for total synchronous steps, for which the
left-to-right fold is exactly that value; sequencing (each intermediate result
awaited before the next step starts) is the data dependence of the fold. -/
theorem pipe_sequential_composition (fns : List (α → α)) (x : α) (h : fns ≠ []) :
    ∃ g, pipe (ArrArg.arr (fns.map (fun f => JSArg.fn (liftFn f)))) none none none
        = Except.ok g ∧
      g x = Except.ok (fns.foldl (fun a f => f a) x) := by
  refine ⟨corePipe "pipe" (fns.map (fun f => JSArg.fn (liftFn f))), ?_, ?_⟩
  · simp [pipe, List.length_eq_zero, h]
  · simpa [corePipe] using pipeFold_lift "pipe" fns 0 x

/-- Witness for C1 at `fns = [n+1, n*2]`, `x = 3`: the pipe fulfils with 8. -/
theorem pipe_sequential_composition_witness :
    ∃ g, pipe (ArrArg.arr (([fun n => n + 1, fun n => n * 2] : List (Nat → Nat)).map
          (fun f => JSArg.fn (liftFn f)))) none none none = Except.ok g ∧
      g 3 = Except.ok 8 :=
  pipe_sequential_composition [fun n => n + 1, fun n => n * 2] 3 (by simp)

/-- C6: a pipe labelled `"outer"` whose step at index 1 is a pipe labelled
`"inner"` whose step at index 0 fails with a (fresh) validation error produces
an error whose `flowContext` is `["outer[1]", "inner[0]"]`, read outside-in;
and in the same configuration a non-validation error propagates with no
annotation at all.  (The embedding mirrors the reduce callback, which awaits
the accumulated payload inside `try`, so in this two-step shape each enclosing
pipe contributes exactly its one `label[index]` entry.) -/
theorem pipe_nested_flow_context (g0 : α → α) (x : α) (msg : String)
    (errs : List Issue) (recv : Option α) (nc : Option String) :
    (∃ innerF outerF,
      pipe (ArrArg.arr [JSArg.fn (fun _ =>
          Except.error (JSError.validation msg errs recv nc none))]) none none (some "inner")
        = Except.ok innerF ∧
      pipe (ArrArg.arr [JSArg.fn (liftFn g0), JSArg.fn innerF]) none none (some "outer")
        = Except.ok outerF ∧
      outerF x = Except.error
        (JSError.validation msg errs recv nc (some ["outer[1]", "inner[0]"]))) ∧
    (∃ innerF outerF,
      pipe (ArrArg.arr [JSArg.fn (fun _ =>
          (Except.error (JSError.generic msg) : Except (JSError α) α))]) none none (some "inner")
        = Except.ok innerF ∧
      pipe (ArrArg.arr [JSArg.fn (liftFn g0), JSArg.fn innerF]) none none (some "outer")
        = Except.ok outerF ∧
      outerF x = Except.error (JSError.generic msg)) := by
  exact ⟨⟨_, _, rfl, rfl, rfl⟩, ⟨_, _, rfl, rfl, rfl⟩⟩

/-- Embedding of `coreBranch` from src/index.ts: awaits the condition, selects exactly one
of the two branches by its truthiness, and returns that branch's result; any
`ValidationError` thrown by the condition or the selected branch gets the
label (no index) prepended to its `flowContext` before being rethrown. -/
def coreBranch (label : String) (condition : α → Except (JSError γ) Bool)
    (trueFn falseFn : α → Except (JSError γ) β) (param : α) : Except (JSError γ) β :=
  match condition param with
  | .error e => Except.error (addFlowContext label e)
  | .ok shouldTakeTrue =>
    match (if shouldTakeTrue then trueFn else falseFn) param with
    | .ok v => Except.ok v
    | .error e => Except.error (addFlowContext label e)

/-- Embedding of `branch(condition, trueFn, falseFn, validation = {})` from src/index.ts:
throws synchronously unless all three arguments are functions; resolves the
label (default `"branch"`).  The source additionally wraps `coreBranch` in
`withSchema` when an input or output schema is supplied; no claim exercises
that path, so the embedding covers the default (no-schema) configuration. -/
def branch (condArg : JSArg (α → Except (JSError γ) Bool))
    (trueArg falseArg : JSArg (α → Except (JSError γ) β)) (labelOpt : Option String) :
    Except String (α → Except (JSError γ) β) :=
  match condArg, trueArg, falseArg with
  | .fn condition, .fn trueFn, .fn falseFn =>
    Except.ok (coreBranch (labelOpt.getD "branch") condition trueFn falseFn)
  | _, _, _ => Except.error "branch() requires three functions: condition, trueFn, falseFn"

/-- C7: when the condition fulfils with `b`, the composed branch returns the
selected branch's value (`trueFn x` for `b = true`, `falseFn x` otherwise),
and the unselected branch is never invoked: replacing it by an arbitrary
function leaves the invocation's outcome unchanged, whether the selected
branch succeeds or fails. -/
theorem branch_selects_one (condition : α → Except (JSError γ) Bool)
    (trueFn falseFn : α → Except (JSError γ) β) (x : α) (b : Bool)
    (hb : condition x = Except.ok b) :
    ∃ g, branch (JSArg.fn condition) (JSArg.fn trueFn) (JSArg.fn falseFn) none
        = Except.ok g ∧
      (∀ v, (if b then trueFn else falseFn) x = Except.ok v → g x = Except.ok v) ∧
      (∀ otherFn : α → Except (JSError γ) β,
        g x = (if b then coreBranch "branch" condition trueFn otherFn x
               else coreBranch "branch" condition otherFn falseFn x)) := by
  refine ⟨coreBranch "branch" condition trueFn falseFn, rfl, ?_, ?_⟩
  · intro v hv
    simp [coreBranch, hb, hv]
  · intro otherFn
    cases b with
    | true => simp [coreBranch, hb]
    | false => simp [coreBranch, hb]

/-- Witness for C7 at `condition = (n < 5)`, `x = 3` (condition true): the
branch returns `trueFn 3 = 4`, and swapping the false branch for another
function does not change the outcome. -/
theorem branch_selects_one_witness :
    ∃ g, branch (γ := Nat) (JSArg.fn (fun n : Nat => Except.ok (decide (n < 5))))
        (JSArg.fn (liftFn (fun n => n + 1))) (JSArg.fn (liftFn (fun n => n * 2))) none
        = Except.ok g ∧
      (∀ v, (if true then liftFn (γ := Nat) (fun n : Nat => n + 1)
             else liftFn (fun n => n * 2)) 3 = Except.ok v → g 3 = Except.ok v) ∧
      (∀ otherFn : Nat → Except (JSError Nat) Nat,
        g 3 = (if true then coreBranch "branch" (fun n : Nat => Except.ok (decide (n < 5)))
                  (liftFn (fun n => n + 1)) otherFn 3
               else coreBranch "branch" (fun n : Nat => Except.ok (decide (n < 5)))
                  otherFn (liftFn (fun n => n * 2)) 3)) :=
  branch_selects_one (fun n : Nat => Except.ok (decide (n < 5)))
    (liftFn (fun n => n + 1)) (liftFn (fun n => n * 2)) 3 true rfl

/-- Combining one timed outcome with the combined outcome of the later
promises, per the ECMAScript `Promise.all` contract: two fulfilments join
(value prepended, settle time the larger); a rejection beats fulfilments; two
rejections are won by the strictly earlier one, a tie by the smaller index
(the order the callbacks were attached on the single thread), i.e. the head. -/
def promiseAllCons {ε : Type} (t : Nat) (r : Except ε β) (tail : Nat × Except ε (List β)) :
    Nat × Except ε (List β) :=
  match r, tail with
  | Except.ok v, (tR, Except.ok vs) => (max t tR, Except.ok (v :: vs))
  | Except.ok _, (tR, Except.error e) => (tR, Except.error e)
  | Except.error e, (_, Except.ok _) => (t, Except.error e)
  | Except.error e, (tR, Except.error e2) =>
    if tR < t then (tR, Except.error e2) else (t, Except.error e)

/-- The ECMAScript `Promise.all` contract over timed outcomes: fulfils with
the values in input order once every promise has settled (time = the largest
settle time) and, as soon as the earliest rejection settles, rejects with that
reason (time = that rejection's settle time). -/
def promiseAll {ε : Type} : List (Nat × Except ε β) → Nat × Except ε (List β)
  | [] => (0, Except.ok [])
  | (t, r) :: rest => promiseAllCons t r (promiseAll rest)

/-- Index and `typeof` string of the first non-function in an argument array;
`none` when every item is a function.  Models the synchronous `throw` raised
from inside the `fns.map` callback, which aborts the traversal at the first
offending item. -/
def firstNotFn : Nat → List (JSArg τ) → Option (Nat × String)
  | _, [] => none
  | i, JSArg.fn _ :: rest => firstNotFn (i + 1) rest
  | i, JSArg.notFn kind :: _ => some (i, kind)

/-- Models the `.catch` attached to each parallel step's promise: a `ValidationError`
rejection gets `label[index]` prepended to its `flowContext` and is rethrown
(at the same settle time); fulfilments pass through. -/
def catchAnnotate (label : String) (index : Nat) :
    Except (JSError γ) β → Except (JSError γ) β
  | .ok v => Except.ok v
  | .error e =>
    Except.error (addFlowContext (label ++ "[" ++ toString index ++ "]") e)

/-- The list of annotated timed outcomes built by `fns.map(...)` inside
`coreParallel`, starting at index `i` (only reached when every item is a
function, i.e. `firstNotFn` found nothing). -/
def runParallelSteps (label : String) :
    Nat → List (JSArg (α → Nat × Except (JSError γ) β)) → α →
      List (Nat × Except (JSError γ) β)
  | _, [], _ => []
  | i, JSArg.fn f :: rest, param =>
    ((f param).1, catchAnnotate label i (f param).2) :: runParallelSteps label (i + 1) rest param
  | i, JSArg.notFn _ :: rest, param => runParallelSteps label (i + 1) rest param

/-- Embedding of `coreParallel` from src/index.ts: maps every step over the shared input
(a non-function item makes the map throw, rejecting the composed promise with
that item's index and kind), attaches the annotating `.catch` to each promise,
and awaits `Promise.all`. -/
def coreParallel (label : String) (fns : List (JSArg (α → Nat × Except (JSError γ) β)))
    (param : α) : Nat × Except (JSError γ) (List β) :=
  match firstNotFn 0 fns with
  | some (i, kind) =>
    (0, Except.error (.generic
      ("All items in parallel array must be functions (item " ++ toString i ++ " is " ++ kind ++ ")")))
  | none => promiseAll (runParallelSteps label 0 fns param)

/-- Embedding of `parallel(fns, validation = {})` from src/index.ts: throws synchronously
only on a non-array argument (an empty array is accepted); resolves the label
(default `"parallel"`).  The source additionally wraps `coreParallel` in
`withSchema` when an input or output schema is supplied; no claim exercises
that path, so the embedding covers the default (no-schema) configuration. -/
def parallel (fnsArg : ArrArg (α → Nat × Except (JSError γ) β)) (labelOpt : Option String) :
    Except String (α → Nat × Except (JSError γ) (List β)) :=
  match fnsArg with
  | .notArr => Except.error "parallel() requires an array of functions"
  | .arr fns => Except.ok (coreParallel (labelOpt.getD "parallel") fns)

/-- Timed steps built from total synchronous transforms paired with arbitrary
settle times: step `i` settles at `times[i]` fulfilling with `fns[i] x`. -/
def timedSteps (fns : List (α → β)) (times : List Nat) :
    List (α → Nat × Except (JSError γ) β) :=
  (fns.zip times).map (fun p => fun a => (p.2, Except.ok (p.1 a)))

theorem firstNotFn_map_fn (l : List τ) : ∀ i, firstNotFn i (l.map JSArg.fn) = none := by
  induction l with
  | nil => intro i; rfl
  | cons f rest ih => intro i; simpa [firstNotFn] using ih (i + 1)

theorem promiseAll_timedSteps (label : String) (fns : List (α → β)) (x : α) :
    ∀ (times : List Nat) (i : Nat), times.length = fns.length →
      promiseAll (runParallelSteps label i
          ((timedSteps (γ := γ) fns times).map JSArg.fn) x)
        = (times.foldr max 0, Except.ok (fns.map (fun f => f x))) := by
  induction fns with
  | nil =>
    intro times i h
    cases times with
    | nil => rfl
    | cons t ts => simp at h
  | cons f rest ih =>
    intro times i h
    cases times with
    | nil => simp at h
    | cons t ts =>
      have hrest := ih ts (i + 1) (by simpa using h)
      calc promiseAll (runParallelSteps label i
              ((timedSteps (γ := γ) (f :: rest) (t :: ts)).map JSArg.fn) x)
          = promiseAllCons t (Except.ok (f x))
              (promiseAll (runParallelSteps label (i + 1)
                ((timedSteps (γ := γ) rest ts).map JSArg.fn) x)) := rfl
        _ = promiseAllCons t (Except.ok (f x))
              (ts.foldr max 0, Except.ok (rest.map (fun g => g x))) := by rw [hrest]
        _ = ((t :: ts).foldr max 0, Except.ok ((f :: rest).map (fun g => g x))) := rfl

/-- C3: for every list of steps and every input `x`, when all steps succeed
the composed parallel function fulfils with `[f1(x), ..., fn(x)]` in the
positional order of the steps, whatever the completion times are (the result
list does not mention the times; only the overall settle time, the latest
one, does), and every step receives the same input `x`. -/
theorem parallel_ordered_results (fns : List (α → β)) (times : List Nat) (x : α)
    (h : times.length = fns.length) :
    ∃ g, parallel (ArrArg.arr ((timedSteps (γ := γ) fns times).map JSArg.fn)) none
        = Except.ok g ∧
      g x = (times.foldr max 0, Except.ok (fns.map (fun f => f x))) := by
  refine ⟨coreParallel "parallel" ((timedSteps (γ := γ) fns times).map JSArg.fn), rfl, ?_⟩
  rw [coreParallel, firstNotFn_map_fn]
  exact promiseAll_timedSteps "parallel" fns x times 0 h

/-- Witness for C3 with three steps whose settle times are out of order
(`[7, 2, 5]`): the result list still follows step order. -/
theorem parallel_ordered_results_witness :
    ∃ g, parallel (ArrArg.arr ((timedSteps (γ := Nat)
          ([fun n => n + 1, fun n => n * 2, fun n => n * n] : List (Nat → Nat))
          [7, 2, 5]).map JSArg.fn)) none = Except.ok g ∧
      g 3 = (7, Except.ok [4, 6, 9]) :=
  parallel_ordered_results [fun n => n + 1, fun n => n * 2, fun n => n * n] [7, 2, 5] 3 rfl

/-- C10: unlike `pipe`, whose constructor rejects an empty array,
`parallel([])` constructs successfully and the composed function fulfils with
the empty list (immediately: `Promise.all([])`) on every input. -/
theorem parallel_empty_ok :
    (pipe (α := Nat) (ArrArg.arr []) none none none
      = Except.error "pipe() requires at least one function") ∧
    ∃ g, parallel (α := Nat) (β := Nat) (γ := Nat) (ArrArg.arr []) none = Except.ok g ∧
      ∀ x, g x = (0, Except.ok []) :=
  ⟨rfl, coreParallel "parallel" [], rfl, fun _ => rfl⟩

theorem promiseAll_ok_of_forall {ε : Type} (l : List (Nat × Except ε β))
    (h : ∀ p ∈ l, ∀ e, p.2 ≠ Except.error e) :
    ∃ T vs, promiseAll l = (T, Except.ok vs) := by
  induction l with
  | nil => exact ⟨0, [], rfl⟩
  | cons p rest ih =>
    obtain ⟨t, r⟩ := p
    obtain ⟨T, vs, hT⟩ := ih (fun q hq e he => h q (List.mem_cons_of_mem _ hq) e he)
    cases r with
    | error e => exact absurd rfl (h (t, Except.error e) (List.mem_cons_self _ _) e)
    | ok v =>
      refine ⟨max t T, v :: vs, ?_⟩
      rw [promiseAll, hT]
      rfl

/-- When some promise in the list rejects, `promiseAll` rejects with the
reason of a rejecting promise whose settle time is minimal among all
rejections (ties going to the smallest index), at exactly that settle time. -/
theorem promiseAll_fail {ε : Type} (l : List (Nat × Except ε β))
    (h : ∃ p ∈ l, ∃ e, p.2 = Except.error e) :
    ∃ (j t : Nat) (e : ε), l[j]? = some (t, Except.error e) ∧
      promiseAll l = (t, Except.error e) ∧
      ∀ (k tk : Nat) (ek : ε),
        l[k]? = some (tk, Except.error ek) → t ≤ tk ∧ (tk = t → j ≤ k) := by
  induction l with
  | nil => simp at h
  | cons p rest ih =>
    obtain ⟨t0, r0⟩ := p
    cases r0 with
    | ok v0 =>
      have hrest : ∃ q ∈ rest, ∃ e, q.2 = Except.error e := by
        obtain ⟨q, hq, e, hqe⟩ := h
        rcases List.mem_cons.mp hq with hq0 | hqr
        · rw [hq0] at hqe; simp at hqe
        · exact ⟨q, hqr, e, hqe⟩
      obtain ⟨j, t, e, h1, h2, h3⟩ := ih hrest
      have h1' : ((t0, Except.ok v0) :: rest)[j + 1]? = some (t, Except.error e) := by
        simpa [List.getElem?_cons_succ] using h1
      refine ⟨j + 1, t, e, h1', ?_, ?_⟩
      · rw [promiseAll, h2]; rfl
      · intro k tk ek hk
        cases k with
        | zero => simp [List.getElem?_cons_zero] at hk
        | succ k =>
          obtain ⟨ha, hb⟩ := h3 k tk ek (by simpa [List.getElem?_cons_succ] using hk)
          exact ⟨ha, fun hteq => Nat.succ_le_succ (hb hteq)⟩
    | error e0 =>
      by_cases hrest : ∃ q ∈ rest, ∃ e, q.2 = Except.error e
      · obtain ⟨j, t, e, h1, h2, h3⟩ := ih hrest
        by_cases hlt : t < t0
        · have h1' : ((t0, Except.error e0) :: rest)[j + 1]? = some (t, Except.error e) := by
            simpa [List.getElem?_cons_succ] using h1
          refine ⟨j + 1, t, e, h1', ?_, ?_⟩
          · rw [promiseAll, h2]; simp [promiseAllCons, hlt]
          · intro k tk ek hk
            cases k with
            | zero =>
              rw [List.getElem?_cons_zero] at hk
              obtain ⟨heq1, heq2⟩ := Prod.mk.injEq .. ▸ Option.some.injEq .. ▸ hk
              refine ⟨by omega, fun hteq => by omega⟩
            | succ k =>
              obtain ⟨ha, hb⟩ := h3 k tk ek (by simpa [List.getElem?_cons_succ] using hk)
              exact ⟨ha, fun hteq => Nat.succ_le_succ (hb hteq)⟩
        · refine ⟨0, t0, e0, List.getElem?_cons_zero, ?_, ?_⟩
          · rw [promiseAll, h2]; simp [promiseAllCons, hlt]
          · intro k tk ek hk
            cases k with
            | zero =>
              rw [List.getElem?_cons_zero] at hk
              obtain ⟨heq1, heq2⟩ := Prod.mk.injEq .. ▸ Option.some.injEq .. ▸ hk
              exact ⟨by omega, fun _ => Nat.zero_le 0⟩
            | succ k =>
              obtain ⟨ha, _⟩ := h3 k tk ek (by simpa [List.getElem?_cons_succ] using hk)
              exact ⟨by omega, fun _ => Nat.zero_le _⟩
      · push_neg at hrest
        obtain ⟨T, vs, hT⟩ := promiseAll_ok_of_forall rest hrest
        refine ⟨0, t0, e0, List.getElem?_cons_zero, ?_, ?_⟩
        · rw [promiseAll, hT]; rfl
        · intro k tk ek hk
          cases k with
          | zero =>
            rw [List.getElem?_cons_zero] at hk
            obtain ⟨heq1, heq2⟩ := Prod.mk.injEq .. ▸ Option.some.injEq .. ▸ hk
            exact ⟨by omega, fun _ => Nat.zero_le 0⟩
          | succ k =>
            rw [List.getElem?_cons_succ] at hk
            exact absurd hk (by
              intro hk
              exact hrest (tk, Except.error ek) (List.getElem?_mem hk) ek rfl)

theorem runParallelSteps_getElem (label : String) (x : α) :
    ∀ (steps : List (α → Nat × Except (JSError γ) β)) (i j : Nat),
      (runParallelSteps label i (steps.map JSArg.fn) x)[j]?
        = (steps[j]?).map (fun f => ((f x).1, catchAnnotate label (i + j) (f x).2)) := by
  intro steps
  induction steps with
  | nil => intro i j; simp [runParallelSteps]
  | cons f rest ih =>
    intro i j
    cases j with
    | zero => simp [runParallelSteps, List.getElem?_cons_zero]
    | succ j =>
      simp only [List.map_cons, runParallelSteps, List.getElem?_cons_succ]
      simp only [show i + (j + 1) = i + 1 + j from by omega]
      exact ih (i + 1) j

/-- C9: when at least one step of `parallel` fails, the composed function
rejects with the failure of the earliest-settling failing step (its
`ValidationError`s annotated with `parallel[index]`), and the rejection's
settle time is exactly that failure's settle time — minimal among all
failures and independent of the other steps' settle times, i.e. the composed
promise does not wait for the remaining steps before rejecting. -/
theorem parallel_fail_fast (steps : List (α → Nat × Except (JSError γ) β)) (x : α)
    (h : ∃ f ∈ steps, ∃ (t : Nat) (e : JSError γ), f x = (t, Except.error e)) :
    ∃ g, parallel (ArrArg.arr (steps.map JSArg.fn)) none = Except.ok g ∧
      ∃ (j t : Nat) (e : JSError γ) (f : α → Nat × Except (JSError γ) β),
        steps[j]? = some f ∧ f x = (t, Except.error e) ∧
        g x = (t, Except.error (addFlowContext ("parallel" ++ "[" ++ toString j ++ "]") e)) ∧
        ∀ (k tk : Nat) (ek : JSError γ) (fk : α → Nat × Except (JSError γ) β),
          steps[k]? = some fk → fk x = (tk, Except.error ek) →
            t ≤ tk ∧ (tk = t → j ≤ k) := by
  refine ⟨coreParallel "parallel" (steps.map JSArg.fn), rfl, ?_⟩
  have hget : ∀ j : Nat,
      (runParallelSteps "parallel" 0 (steps.map JSArg.fn) x)[j]?
        = (steps[j]?).map (fun f => ((f x).1, catchAnnotate "parallel" j (f x).2)) := by
    intro j
    rw [runParallelSteps_getElem]
    simp only [Nat.zero_add]
  have hrun : coreParallel "parallel" (steps.map JSArg.fn) x
      = promiseAll (runParallelSteps "parallel" 0 (steps.map JSArg.fn) x) := by
    rw [coreParallel, firstNotFn_map_fn]
  have hL : ∃ p ∈ runParallelSteps "parallel" 0 (steps.map JSArg.fn) x,
      ∃ e, p.2 = Except.error e := by
    obtain ⟨f, hf, t, e, hfe⟩ := h
    obtain ⟨n, hn⟩ := List.mem_iff_getElem?.mp hf
    refine ⟨(t, Except.error (addFlowContext ("parallel" ++ "[" ++ toString n ++ "]") e)),
      ?_, _, rfl⟩
    refine List.getElem?_mem (n := n) ?_
    rw [hget n, hn, Option.map_some', hfe]
    rfl
  obtain ⟨j, tj, ej, h1, h2, h3⟩ := promiseAll_fail _ hL
  rw [hget j] at h1
  cases hsj : steps[j]? with
  | none => rw [hsj] at h1; simp at h1
  | some fj =>
    rw [hsj, Option.map_some', Option.some.injEq] at h1
    have htj : (fj x).1 = tj := congrArg Prod.fst h1
    have hr : catchAnnotate "parallel" j (fj x).2 = Except.error ej := congrArg Prod.snd h1
    cases hfjx : (fj x).2 with
    | ok v => rw [hfjx] at hr; simp [catchAnnotate] at hr
    | error e0 =>
      rw [hfjx] at hr
      have hej : ej = addFlowContext ("parallel" ++ "[" ++ toString j ++ "]") e0 :=
        (Except.error.injEq .. ▸ hr).symm
      refine ⟨j, tj, e0, fj, hsj, ?_, ?_, ?_⟩
      · rw [← htj, ← hfjx]
      · rw [hrun, h2, hej]
      · intro k tk ek fk hsk hfk
        have hLk : (runParallelSteps "parallel" 0 (steps.map JSArg.fn) x)[k]?
            = some (tk, Except.error (addFlowContext ("parallel" ++ "[" ++ toString k ++ "]") ek)) := by
          rw [hget k, hsk, Option.map_some', hfk]
          rfl
        exact h3 k tk _ hLk

/-- Witness for C9: three steps sharing input 0, the middle one failing at
time 3 while a success settles later at time 9; the composed parallel rejects
at time 3 with the annotated failure. -/
theorem parallel_fail_fast_witness :
    ∃ g, parallel (ArrArg.arr
        (([fun _ => (5, Except.ok 1),
           fun _ => (3, Except.error (JSError.validation "bad" [] none none none)),
           fun _ => (9, Except.ok 2)] :
          List (Nat → Nat × Except (JSError Nat) Nat)).map JSArg.fn)) none = Except.ok g ∧
      ∃ (j t : Nat) (e : JSError Nat) (f : Nat → Nat × Except (JSError Nat) Nat),
        ([fun _ => (5, Except.ok 1),
          fun _ => (3, Except.error (JSError.validation "bad" [] none none none)),
          fun _ => (9, Except.ok 2)] :
          List (Nat → Nat × Except (JSError Nat) Nat))[j]? = some f ∧
        f 0 = (t, Except.error e) ∧
        g 0 = (t, Except.error (addFlowContext ("parallel" ++ "[" ++ toString j ++ "]") e)) ∧
        ∀ (k tk : Nat) (ek : JSError Nat) (fk : Nat → Nat × Except (JSError Nat) Nat),
          ([fun _ => (5, Except.ok 1),
            fun _ => (3, Except.error (JSError.validation "bad" [] none none none)),
            fun _ => (9, Except.ok 2)] :
            List (Nat → Nat × Except (JSError Nat) Nat))[k]? = some fk →
          fk 0 = (tk, Except.error ek) → t ≤ tk ∧ (tk = t → j ≤ k) :=
  parallel_fail_fast
    [fun _ => (5, Except.ok 1),
     fun _ => (3, Except.error (JSError.validation "bad" [] none none none)),
     fun _ => (9, Except.ok 2)] 0
    ⟨fun _ => (3, Except.error (JSError.validation "bad" [] none none none)),
      List.mem_cons_of_mem _ (List.mem_cons_self _ _), 3,
      JSError.validation "bad" [] none none none, rfl⟩

/-- The ECMAScript `Promise.race` contract over timed outcomes: settles with
the earliest-settling promise's outcome, success or failure alike (a tie by
the smaller index); `none` models the forever-pending `Promise.race([])`. -/
def promiseRace {ε : Type} : List (Nat × Except ε β) → Option (Nat × Except ε β)
  | [] => none
  | (t, r) :: rest =>
    match promiseRace rest with
    | none => some (t, r)
    | some (tR, rR) => if tR < t then some (tR, rR) else some (t, r)

/-- The timed outcomes of the race's steps (only reached when every item is a
function). -/
def runRaceSteps : List (JSArg (α → Nat × Except (JSError γ) β)) → α →
    List (Nat × Except (JSError γ) β)
  | [], _ => []
  | JSArg.fn f :: rest, param => f param :: runRaceSteps rest param
  | JSArg.notFn _ :: rest, param => runRaceSteps rest param

/-- Embedding of `race(fns)` from src/index.ts: the constructor performs no checks at all
and immediately returns the composed async function; that function checks the
array argument and each item only when invoked, so both configuration errors
surface as a rejected promise (`Except.error` of the returned function), never
as a synchronous construction-time throw.  `none` is the forever-pending
result of racing an empty array. -/
def race (fnsArg : ArrArg (α → Nat × Except (JSError γ) β)) :
    α → Option (Nat × Except (JSError γ) β) :=
  fun param =>
    match fnsArg with
    | .notArr => some (0, Except.error (.generic "race() requires an array of functions"))
    | .arr fns =>
      match firstNotFn 0 fns with
      | some _ => some (0, Except.error (.generic "All items in race array must be functions"))
      | none => promiseRace (runRaceSteps fns param)

/-- The loop of `cycle`'s composed function (src/index.ts):
`while (await condition(current) && iterations < maxIterations)` runs the
body, increments the counter and throws as soon as the counter has reached
the bound; errors from the condition or the body propagate unchanged.
`maxIterations` is an `Int` so that non-positive bounds behave as in the
source. -/
def cycleGo (bodyFn : α → Except (JSError γ) α) (condition : α → Except (JSError γ) Bool)
    (maxIterations iterations : Int) (current : α) : Except (JSError γ) α :=
  match condition current with
  | .error e => Except.error e
  | .ok b =>
    if _h : b = true ∧ iterations < maxIterations then
      match bodyFn current with
      | .error e => Except.error e
      | .ok next =>
        if _h2 : iterations + 1 ≥ maxIterations then
          Except.error (.generic
            ("Cycle exceeded maximum iterations (" ++ toString maxIterations ++ ")"))
        else cycleGo bodyFn condition maxIterations (iterations + 1) next
    else Except.ok current
termination_by (maxIterations - iterations).toNat
decreasing_by omega

/-- Embedding of `cycle(bodyFn, condition, maxIterations = 100)` from src/index.ts: the
constructor performs no checks; the returned composed function checks that
`bodyFn` and `condition` are functions only when invoked (a rejected promise
otherwise) and then runs the loop from the input with the counter at 0. -/
def cycle (bodyArg : JSArg (α → Except (JSError γ) α))
    (condArg : JSArg (α → Except (JSError γ) Bool)) (maxIterations : Int) :
    α → Except (JSError γ) α :=
  fun param =>
    match bodyArg, condArg with
    | .fn bodyFn, .fn condition => cycleGo bodyFn condition maxIterations 0 param
    | _, _ => Except.error (.generic "cycle() requires bodyFn and condition functions")

/-- Follows the words of claim C2 (and spec section 4.6), not the source: if
the condition is false, return the current value; otherwise run the body,
count the completed invocation, and fail with the bound error as soon as the
number of completed body invocations has reached `maxIterations`; then
repeat.  Stated for total synchronous body and condition. -/
def cycleSpecGo (bodyFn : α → α) (condition : α → Bool)
    (maxIterations completed : Int) (current : α) : Except (JSError γ) α :=
  if condition current then
    if _h : completed + 1 ≥ maxIterations then
      Except.error (.generic
        ("Cycle exceeded maximum iterations (" ++ toString maxIterations ++ ")"))
    else cycleSpecGo bodyFn condition maxIterations (completed + 1) (bodyFn current)
  else Except.ok current
termination_by (maxIterations - completed).toNat
decreasing_by omega

/-- The claim-level model of `cycle` run from an input, zero completed body
invocations so far. -/
def cycleSpecModel (bodyFn : α → α) (condition : α → Bool) (maxIterations : Int)
    (x : α) : Except (JSError γ) α :=
  cycleSpecGo bodyFn condition maxIterations 0 x

theorem cycleGo_eq_specGo (bodyFn : α → α) (condition : α → Bool) (maxIterations : Int) :
    ∀ (n : Nat) (iterations : Int) (current : α),
      (maxIterations - iterations).toNat ≤ n → iterations < maxIterations →
      cycleGo (γ := γ) (liftFn bodyFn) (liftFn condition) maxIterations iterations current
        = cycleSpecGo bodyFn condition maxIterations iterations current := by
  intro n
  induction n with
  | zero =>
    intro iterations current hn hlt
    exfalso
    omega
  | succ n ih =>
    intro iterations current hn hlt
    rw [cycleGo, cycleSpecGo]
    simp only [liftFn]
    cases hc : condition current with
    | false =>
      rw [dif_neg (by simp [hc]), if_neg (by simp [hc])]
    | true =>
      rw [dif_pos ⟨rfl, hlt⟩, if_pos rfl]
      by_cases hge : iterations + 1 ≥ maxIterations
      · rw [dif_pos hge, dif_pos hge]
      · rw [dif_neg hge, dif_neg hge]
        exact ih (iterations + 1) (bodyFn current) (by omega) (by omega)

/-- C2 (amended): (1) when the condition is false on the input, the composed
cycle returns the input unchanged with zero body invocations (shown by
running the same cycle on a body instrumented with an invocation counter);
(2) for every bound `maxIterations ≥ 1` the composed cycle behaves exactly as
the claim's loop model `cycleSpecModel` — apply the body, count the completed
invocation, fail with the bound error as soon as the count reaches the bound,
else re-test the condition; (3) however, for `maxIterations ≤ 0` and a true
condition the source's `while` guard (`iterations < maxIterations`) exits
immediately, returning the input successfully instead of failing. -/
theorem cycle_iteration_bound (bodyFn : α → α) (condition : α → Bool)
    (maxIterations : Int) (x : α) :
    (condition x = false →
      cycle (γ := γ) (JSArg.fn (liftFn (fun p : α × Nat => (bodyFn p.1, p.2 + 1))))
        (JSArg.fn (liftFn (fun p : α × Nat => condition p.1))) maxIterations (x, 0)
        = Except.ok (x, 0)) ∧
    (1 ≤ maxIterations →
      cycle (γ := γ) (JSArg.fn (liftFn bodyFn)) (JSArg.fn (liftFn condition)) maxIterations x
        = cycleSpecModel bodyFn condition maxIterations x) ∧
    (maxIterations ≤ 0 → condition x = true →
      cycle (γ := γ) (JSArg.fn (liftFn bodyFn)) (JSArg.fn (liftFn condition)) maxIterations x
        = Except.ok x) := by
  refine ⟨?_, ?_, ?_⟩
  · intro h
    simp only [cycle]
    rw [cycleGo]
    simp only [liftFn]
    rw [dif_neg (by simp [h])]
  · intro h
    simp only [cycle, cycleSpecModel]
    exact cycleGo_eq_specGo bodyFn condition maxIterations
      (maxIterations - 0).toNat 0 x (le_refl _) (by omega)
  · intro h _hc
    simp only [cycle]
    rw [cycleGo]
    simp only [liftFn]
    rw [dif_neg (by rintro ⟨-, h2⟩; omega)]

/-- Witness for C2: with body `n+1` and condition `n < 3`, a false condition
(input 5) returns unchanged with a zero counter, and with bound 10 the cycle
agrees with the claim-level loop model. -/
theorem cycle_iteration_bound_witness :
    cycle (γ := Nat) (JSArg.fn (liftFn (fun p : Nat × Nat => (p.1 + 1, p.2 + 1))))
        (JSArg.fn (liftFn (fun p : Nat × Nat => decide (p.1 < 3)))) 10 (5, 0)
      = Except.ok (5, 0) ∧
    cycle (γ := Nat) (JSArg.fn (liftFn (fun n : Nat => n + 1)))
        (JSArg.fn (liftFn (fun n : Nat => decide (n < 3)))) 10 0
      = cycleSpecModel (fun n => n + 1) (fun n => decide (n < 3)) 10 0 :=
  ⟨(cycle_iteration_bound (fun n => n + 1) (fun n => decide (n < 3)) 10 5).1 rfl,
   (cycle_iteration_bound (fun n => n + 1) (fun n => decide (n < 3)) 10 0).2.1 (by decide)⟩

/-- Counterexample to C2 as stated: at `maxIterations = 0` with an always-true
condition, the composed cycle returns the input 7 successfully with zero body
invocations (the `while` guard `iterations < maxIterations` is false at
entry), whereas the claim's words — fail once the number of completed body
invocations reaches the bound — demand a failure, as the claim-level model
shows. -/
theorem cycle_zero_bound_counterexample :
    cycle (γ := Nat) (JSArg.fn (liftFn (fun n : Nat => n + 1)))
        (JSArg.fn (liftFn (fun _ : Nat => true))) 0 7 = Except.ok 7 ∧
    cycleSpecModel (γ := Nat) (fun n : Nat => n + 1) (fun _ => true) 0 7
      = Except.error (JSError.generic "Cycle exceeded maximum iterations (0)") := by
  constructor
  · simp only [cycle]
    rw [cycleGo]
    simp [liftFn]
  · simp only [cycleSpecModel]
    rw [cycleSpecGo]
    norm_num
    rfl

/-- C4 (amended): `pipe`, `parallel` and `branch` validate their configuration
synchronously at construction time — `pipe` rejects a non-array and an empty
array, `parallel` rejects a non-array (an empty array is legal), `branch`
rejects non-function arguments — and those errors are construction-time
throws, never rejected promises; `race` and `cycle`, however, perform their
checks (non-array argument; non-function `bodyFn`/`condition`) only when the
composed function is invoked, surfacing them as a rejected promise. -/
theorem composition_time_checks :
    (pipe (α := Nat) ArrArg.notArr none none none
      = Except.error "pipe() requires an array of functions") ∧
    (pipe (α := Nat) (ArrArg.arr []) none none none
      = Except.error "pipe() requires at least one function") ∧
    (parallel (α := Nat) (β := Nat) (γ := Nat) ArrArg.notArr none
      = Except.error "parallel() requires an array of functions") ∧
    (branch (γ := Nat) (JSArg.notFn "number")
        (JSArg.fn (liftFn (fun n : Nat => n + 1))) (JSArg.fn (liftFn (fun n : Nat => n * 2)))
        none
      = Except.error "branch() requires three functions: condition, trueFn, falseFn") ∧
    (∃ g, parallel (α := Nat) (β := Nat) (γ := Nat) (ArrArg.arr []) none = Except.ok g) ∧
    (∀ x : Nat, race (β := Nat) (γ := Nat) ArrArg.notArr x
      = some (0, Except.error (JSError.generic "race() requires an array of functions"))) ∧
    (∀ x : Nat, cycle (γ := Nat) (JSArg.notFn "number")
        (JSArg.fn (liftFn (fun n : Nat => decide (n < 5)))) 100 x
      = Except.error (JSError.generic "cycle() requires bodyFn and condition functions")) :=
  ⟨rfl, rfl, rfl, rfl, ⟨coreParallel "parallel" [], rfl⟩, fun _ => rfl, fun _ => rfl⟩

/-- Counterexample to C4 as stated: the non-array configuration error of
`race` is surfaced as a rejected promise of the composed function (the source
`race` returns its closure without performing any synchronous check), and
`parallel([])` constructs successfully even though the claim lists an empty
step list as a configuration error for every primitive. -/
theorem race_config_error_is_rejected_promise :
    race (β := Nat) (γ := Nat) ArrArg.notArr (0 : Nat)
      = some (0, Except.error (JSError.generic "race() requires an array of functions")) ∧
    ∃ g, parallel (α := Nat) (β := Nat) (γ := Nat) (ArrArg.arr []) none = Except.ok g :=
  ⟨rfl, coreParallel "parallel" [], rfl⟩

/-- Counterexample to C5 as stated: with no schemas, `withSchema` is not
transparent on failures — a step rejecting with a plain error `"boom"` comes
out of the wrapper as a different error whose message embeds the label. -/
theorem withSchema_no_schema_not_transparent :
    withSchema (fun _ : Nat => Except.error (JSError.generic "boom")) none none
        (some "step") "" 0
      ≠ (fun _ : Nat => (Except.error (JSError.generic "boom") : Except (JSError Nat) Nat)) 0 := by
  decide

/-- C5 (amended): `withSchema(fn, {}, label)` with neither schema returns
`fn`'s result unchanged whenever `fn` succeeds; when `fn` fails with a
validation error whose `nodeContext` is already set (non-empty) the error
passes through unchanged; a validation error lacking `nodeContext` is
rethrown with `nodeContext` set to the label (or `fn`'s name, or
`"anonymous"`); any other error is replaced by a new generic error whose
message embeds that label and the original message. -/
theorem withSchema_no_schemas_behavior (fn : γ → Except (JSError γ) γ)
    (labelOpt : Option String) (fnName : String) (x : γ) :
    (∀ v, fn x = Except.ok v → withSchema fn none none labelOpt fnName x = Except.ok v) ∧
    (∀ m errs r c fc, fn x = Except.error (JSError.validation m errs r (some c) fc) →
      c ≠ "" →
      withSchema fn none none labelOpt fnName x
        = Except.error (JSError.validation m errs r (some c) fc)) ∧
    (∀ m errs r fc, fn x = Except.error (JSError.validation m errs r none fc) →
      withSchema fn none none labelOpt fnName x
        = Except.error (JSError.validation m errs r
            (some (jsOr (labelOpt.getD "") (jsOr fnName "anonymous"))) fc)) ∧
    (∀ m, fn x = Except.error (JSError.generic m) →
      withSchema fn none none labelOpt fnName x
        = Except.error (JSError.generic
            ("Function '" ++ jsOr (labelOpt.getD "") (jsOr fnName "anonymous")
              ++ "' execution failed: " ++ m))) := by
  refine ⟨?_, ?_, ?_, ?_⟩
  · intro v hv
    simp [withSchema, hv]
  · intro m errs r c fc hv hc
    simp [withSchema, hv, jsOr, hc]
  · intro m errs r fc hv
    simp [withSchema, hv, jsOr]
  · intro m hv
    simp [withSchema, hv]

/-- Witness for C5 (amended), success case: wrapping `n + 1` with no schemas
and label `"inc"` maps 3 to 4 unchanged. -/
theorem withSchema_no_schemas_behavior_witness :
    withSchema (liftFn (fun n : Nat => n + 1)) none none (some "inc") "" 3 = Except.ok 4 :=
  (withSchema_no_schemas_behavior (liftFn (fun n : Nat => n + 1)) (some "inc") "" 3).1 4 rfl

/-- C8: when an input schema is configured and the schema's parse of the raw
input fails with an issue list, the wrapped function rejects with a
validation error whose message and `nodeContext` carry
`label || fn.name || 'anonymous'`, whose `received` is the raw input and
whose `errors` are exactly the schema's issues — and the inner function is
never invoked: the result is the same whatever function is wrapped. -/
theorem withSchema_input_validation (s : Schema γ) (data : γ) (issues : List Issue)
    (h : s data = Except.error issues) (outputS : Option (Schema γ))
    (labelOpt : Option String) (fnName : String) (fn : γ → Except (JSError γ) γ) :
    withSchema fn (some s) outputS labelOpt fnName data
      = Except.error (JSError.validation
          ("Input validation failed for function '"
            ++ jsOr (labelOpt.getD "") (jsOr fnName "anonymous") ++ "'")
          issues (some data) (some (jsOr (labelOpt.getD "") (jsOr fnName "anonymous"))) none) ∧
    (∀ fn2, withSchema fn (some s) outputS labelOpt fnName data
      = withSchema fn2 (some s) outputS labelOpt fnName data) := by
  constructor
  · simp [withSchema, h]
  · intro fn2
    simp [withSchema, h]

/-- Witness for C8: a schema rejecting 0 with one issue makes the wrapper
labelled `"check"` reject with the structured validation error carrying the
raw input 0, without invoking the wrapped function. -/
theorem withSchema_input_validation_witness :
    withSchema (liftFn (fun n : Nat => n + 1))
        (some (fun n : Nat => if n = 0 then Except.error [⟨[], "zero"⟩] else Except.ok n))
        none (some "check") "" 0
      = Except.error (JSError.validation
          "Input validation failed for function 'check'"
          [⟨[], "zero"⟩] (some 0) (some "check") none) :=
  (withSchema_input_validation
    (fun n : Nat => if n = 0 then Except.error [⟨[], "zero"⟩] else Except.ok n)
    0 [⟨[], "zero"⟩] rfl none (some "check") "" (liftFn (fun n => n + 1))).1

end Flow
